import Mathlib

set_option maxRecDepth 8000

/-!
Shallow embedding of the Image-Compressor repository.

The repository has three Python files:
* `image_compressor.py`: the main pipeline `compress_image` (validate path and
  extension, decode, resize by bounding box, resolve output path, flatten
  alpha for JPEG targets, encode).
* `script.py`: an interactive variant driven by a file picker and a quality
  dialog.
* `test_image_compressor.py`: tests of the main pipeline.

External collaborators (the PIL codec: decode, Lanczos resample, PNG/JPEG
encoders) are modelled as an abstract `Codec` record; the repository's own
logic (path arithmetic, resize arithmetic, extension dispatch, control flow)
is translated function by function.  The file system is a map from path
strings to file contents; machine arithmetic on dimensions uses `Nat` with
truncating division, mirroring Python's `int()` applied to a non-negative
product.
-/

namespace ImageCompressor

/-- PIL color-mode tag: `RGB`, `RGBA`, or any other mode. -/
inductive Mode
  | rgb
  | rgba
  | other
deriving DecidableEq, Repr

/-- A pixel with red, green, blue and alpha components (0..255).  In `RGB`
mode the alpha component is conventionally 255. -/
structure Pixel where
  r : Nat
  g : Nat
  b : Nat
  a : Nat
deriving DecidableEq, Repr

/-- A decoded in-memory image: mode tag, dimensions and pixel data. -/
structure Img where
  mode : Mode
  width : Nat
  height : Nat
  pixels : List Pixel
deriving DecidableEq, Repr

/-- The file system: a map from path strings to file contents (bytes modelled
as a `String`).  `none` means the path does not exist. -/
def Store : Type := String → Option String

/-- Writing a file: the store updated at one path. -/
def writeFile (store : Store) (path : String) (data : String) : Store :=
  fun p => if p = path then some data else store p

/-- Overriding one path with an arbitrary state (used for the unspecified
output-file state after a failed encode). -/
def setPath (store : Store) (path : String) (v : Option String) : Store :=
  fun p => if p = path then v else store p

/-- The external imaging library (PIL), abstracted: decoding may fail,
resampling produces an image of the requested size, and each encoder may
fail.  `encodeAuto` is PIL's `save` with the format inferred from the output
extension, used by the interactive script.  `residue` — modelled from the
spec: "No partial-write cleanup is specified — if encode fails mid-write,
the output file state is undefined"; the library opens (creating or
truncating) the output file before the format handler runs, so a failed save
leaves the output path in an unspecified state (absent, empty or partial),
supplied here by the environment. -/
structure Codec where
  decode : String → Option Img
  resample : Img → Nat → Nat → Img
  encodePng : Img → Option String
  encodeJpeg : Img → Nat → Option String
  encodeAuto : Img → Int → Option String
  residue : Option String

/-- The error taxonomy of the pipeline (spec names): input path missing,
extension outside the allowed set (with the raised message), codec failed to
decode, codec failed to encode. -/
inductive CompressError
  | notFound
  | unsupportedFormat (msg : String)
  | decodeError
  | encodeError
deriving DecidableEq, Repr

/-! ### String primitives

Structural reimplementations of splitting, joining, lowercasing and
suffix testing, so that every path computation reduces definitionally. -/

/-- Split a character list at every occurrence of `c` (`str.split`): the
empty list yields one empty part. -/
def splitOnChar (c : Char) : List Char → List (List Char)
  | [] => [[]]
  | x :: xs =>
    let r := splitOnChar c xs
    if x = c then [] :: r
    else
      match r with
      | [] => [[x]]
      | y :: ys => (x :: y) :: ys

/-- Join character lists with a separator list (`sep.join`). -/
def joinWithList (sep : List Char) : List (List Char) → List Char
  | [] => []
  | [x] => x
  | x :: y :: ys => x ++ sep ++ joinWithList sep (y :: ys)

/-- Join strings with a separator string (`sep.join(parts)`). -/
def intercalateStr (sep : String) (l : List String) : String :=
  String.mk (joinWithList sep.toList (l.map String.toList))

/-- ASCII lowercasing of one character, modelling `str.lower` on the ASCII
range the repository's extensions use. -/
def lowerChar (c : Char) : Char :=
  if 'A' ≤ c ∧ c ≤ 'Z' then Char.ofNat (c.toNat + 32) else c

/-- Model of `str.lower` (ASCII). -/
def lowerStr (s : String) : String :=
  String.mk (s.toList.map lowerChar)

/-- Model of `str.endswith`. -/
def endsWithStr (s suf : String) : Bool :=
  suf.toList.isSuffixOf s.toList

/-! ### Path arithmetic (model of `pathlib.Path` and `os.path.splitext`) -/

/-- The final path component: the part after the last `/`
(`pathlib.Path(p).name`). -/
def fileName (p : String) : String :=
  String.mk ((splitOnChar '/' p.toList).getLastD [])

/-- The directory part: the components before the last `/`, or `"."` when the
path is a bare file name (`pathlib.Path(p).parent`). -/
def parentDir (p : String) : String :=
  let parts := (splitOnChar '/' p.toList).dropLast
  if parts.isEmpty then "." else String.mk (joinWithList ['/'] parts)

/-- Split a file name into stem and extension at the last dot, following
`pathlib`: no extension when the name has no dot, when the only dot leads the
name, or when the last dot ends the name. -/
def nameSplit (name : String) : String × String :=
  let parts := splitOnChar '.' name.toList
  match parts with
  | [] => (name, "")
  | [_] => (name, "")
  | _ =>
    let last := parts.getLastD []
    let front := parts.dropLast
    if last = [] ∨ front = [[]] then (name, "")
    else (String.mk (joinWithList ['.'] front), String.mk ('.' :: last))

/-- Model of `pathlib.Path(p).suffix`: the extension of the final component. -/
def pathSuffix (p : String) : String :=
  (nameSplit (fileName p)).2

/-- Model of `pathlib.Path(p).stem`: the final component without its extension. -/
def pathStem (p : String) : String :=
  (nameSplit (fileName p)).1

/-- The default output path `str(input.parent / f"{stem}_compressed{suffix}")`;
`pathlib` drops a `"."` parent when rendering the joined path. -/
def defaultOutputPath (p : String) : String :=
  let name := pathStem p ++ "_compressed" ++ pathSuffix p
  if parentDir p = "." then name else parentDir p ++ "/" ++ name

/-- The resolved output path: the explicit one when supplied, else derived
from the input path. -/
def resolveOutputPath (inputPath : String) : Option String → String
  | some p => p
  | none => defaultOutputPath inputPath

/-! ### IEEE-754 double-precision model

The source computes `ratio = max_width / original_width` as a Python float
(an IEEE-754 binary64 double) and then `int(original_height * ratio)`.  Both
the division and the multiplication round their exact result to the nearest
double (53-bit significand, ties to even), and `int()` then truncates toward
zero.  The model below implements exactly that on integer pairs
`mantissa × 2^exponent`; all quantities arising from image dimensions are
positive and lie far inside the normal double range, so neither overflow nor
subnormals need modelling. -/

/-- Base-2 logarithm (floor) of a positive natural number, by structural
fuel recursion so the kernel can evaluate it. -/
def log2Aux : Nat → Nat → Nat
  | 0, _ => 0
  | fuel + 1, n => if n ≤ 1 then 0 else log2Aux fuel (n / 2) + 1

/-- Floor of the base-2 logarithm of `n` (0 for `n = 0`). -/
def natLog2 (n : Nat) : Nat :=
  log2Aux n n

/-- Round-half-to-even of the fraction `n / d` (meaningful for `0 < d`). -/
def rne (n d : Nat) : Nat :=
  let q := n / d
  let r := n % d
  if 2 * r < d then q
  else if d < 2 * r then q + 1
  else if q % 2 = 0 then q else q + 1

/-- Round-half-to-even of `(a / b) × 2^k` for an integer `k`. -/
def scaledRne (a b : Nat) (k : Int) : Nat :=
  if 0 ≤ k then rne (a * 2 ^ k.toNat) b else rne a (b * 2 ^ (-k).toNat)

/-- Does `2^l ≤ a / b` hold (for positive `a`, `b`)?  Decided by
cross-multiplication. -/
def pow2LeFrac (l : Int) (a b : Nat) : Bool :=
  if 0 ≤ l then decide (b * 2 ^ l.toNat ≤ a) else decide (b ≤ a * 2 ^ (-l).toNat)

/-- The unique `e` with `2^e ≤ a/b < 2^(e+1)`, for positive `a`, `b`: the
candidate from the integer logarithms is off by at most one, fixed up by one
comparison. -/
def log2Frac (a b : Nat) : Int :=
  let l : Int := (natLog2 a : Int) - (natLog2 b : Int)
  if pow2LeFrac l a b then l else l - 1

/-- A non-negative IEEE double, represented exactly: the value is
`m × 2^e`.  Results of rounding have `2^52 ≤ m ≤ 2^53` (or `m = 0`). -/
structure FP where
  m : Nat
  e : Int
deriving DecidableEq, Repr

/-- Python's `a / b` on positive integers: the exact quotient rounded to the
nearest double, ties to even. -/
def fdiv (a b : Nat) : FP :=
  let e := log2Frac a b
  ⟨scaledRne a b (52 - e), e - 52⟩

/-- Python's `c * x` for an integer `c` and a float `x`: the integer converts
to double exactly (dimensions are far below `2^53`) and the exact product is
rounded to the nearest double, ties to even. -/
def fmul (c : Nat) (x : FP) : FP :=
  let P := c * x.m
  if P = 0 then ⟨0, 0⟩
  else
    let l := natLog2 P
    ⟨scaledRne P 1 ((52 : Int) - l), x.e + l - 52⟩

/-- Python's `int()` on a non-negative float: truncation toward zero. -/
def fToInt (x : FP) : Nat :=
  if 0 ≤ x.e then x.m * 2 ^ x.e.toNat else x.m / 2 ^ (-x.e).toNat

/-! ### Resize arithmetic (`compress_image`, resize block) -/

/-- Truthiness of an optional integer argument: Python treats both `None` and
`0` as false in `if max_width ...`. -/
def truthyNat : Option Nat → Bool
  | none => false
  | some n => decide (n ≠ 0)

/-- The width-bound step of the resize arithmetic: when `max_width` is truthy
and the current width exceeds it, the width becomes `max_width` and the
height becomes `int(height * (max_width / width))` in double-precision
arithmetic. -/
def widthStep (wh : Nat × Nat) : Option Nat → Nat × Nat
  | none => wh
  | some mw =>
    if mw ≠ 0 ∧ mw < wh.1 then (mw, fToInt (fmul wh.2 (fdiv mw wh.1))) else wh

/-- The height-bound step: when `max_height` is truthy and the current
(possibly already width-adjusted) height exceeds it, the height becomes
`max_height` and the width becomes `int(width * (max_height / height))` in
double-precision arithmetic. -/
def heightStep (wh : Nat × Nat) : Option Nat → Nat × Nat
  | none => wh
  | some mh =>
    if mh ≠ 0 ∧ mh < wh.2 then (fToInt (fmul wh.1 (fdiv mh wh.2)), mh) else wh

/-- The resize arithmetic of `compress_image`: the width bound is applied
first, the height bound second on the updated pair, exactly as the two
sequential `if` statements in the source. -/
def resizeDims (w h : Nat) (maxW maxH : Option Nat) : Nat × Nat :=
  let p :=
    match maxW with
    | some mw =>
      if mw ≠ 0 ∧ mw < w then (mw, fToInt (fmul h (fdiv mw w))) else (w, h)
    | none => (w, h)
  match maxH with
  | some mh =>
    if mh ≠ 0 ∧ mh < p.2 then (fToInt (fmul p.1 (fdiv mh p.2)), mh) else p
  | none => p

/-- The resize block of `compress_image`: entered only when at least one
bound is truthy, and the codec's resampler is invoked only when the computed
dimensions differ from the original ones. -/
def resizeIfNeeded (codec : Codec) (img : Img) (maxW maxH : Option Nat) : Img :=
  if truthyNat maxW || truthyNat maxH then
    let wh := resizeDims img.width img.height maxW maxH
    if wh ≠ (img.width, img.height) then codec.resample img wh.1 wh.2 else img
  else img

/-! ### Alpha flattening (`compress_image`, RGBA-to-RGB block) -/

/-- Per-pixel composite over an opaque white background with the pixel's
alpha as blend mask, modelling the library's `paste` with an alpha mask:
each channel becomes `(c*a + 255*(255-a)) / 255` and the result is opaque. -/
def blendOverWhite (p : Pixel) : Pixel :=
  { r := (p.r * p.a + 255 * (255 - p.a)) / 255
  , g := (p.g * p.a + 255 * (255 - p.a)) / 255
  , b := (p.b * p.a + 255 * (255 - p.a)) / 255
  , a := 255 }

/-- The source's flattening: a white RGB image of the same size with the
original pasted onto it using the alpha channel as mask. -/
def flattenWhite (img : Img) : Img :=
  { mode := Mode.rgb
  , width := img.width
  , height := img.height
  , pixels := img.pixels.map blendOverWhite }

/-- The RGBA-to-RGB conversion of `compress_image`: applied exactly when the
image mode is `RGBA` and the output extension is `.jpg` or `.jpeg`. -/
def prepareForEncode (img : Img) (outExt : String) : Img :=
  if img.mode = Mode.rgba ∧ (outExt = ".jpg" ∨ outExt = ".jpeg") then
    flattenWhite img
  else img

/-! ### Encoding dispatch and the full pipeline -/

/-- The supported input extensions of `compress_image`. -/
def supportedFormats : List String := [".png", ".jpg", ".jpeg"]

/-- The message of the unsupported-format error raised by `compress_image`. -/
def unsupportedMsg (ext : String) : String :=
  "Unsupported file format: " ++ ext ++ ". Supported: " ++
    intercalateStr ", " supportedFormats

/-- The save dispatch of `compress_image`: the `.png` extension uses the
lossless PNG encoder, every other extension falls through to the JPEG
encoder with the given quality. -/
def saveImage (codec : Codec) (img : Img) (outExt : String) (quality : Nat) :
    Option String :=
  if outExt = ".png" then codec.encodePng img else codec.encodeJpeg img quality

/-- The pipeline `compress_image(input_path, output_path, quality, max_width, max_height)`:
returns the file system after the call together with either the returned
output path or the raised error. -/
def compress (codec : Codec) (store : Store) (inputPath : String)
    (outputPath : Option String) (quality : Nat) (maxW maxH : Option Nat) :
    Store × Except CompressError String :=
  match store inputPath with
  | none => (store, Except.error CompressError.notFound)
  | some contents =>
    let fileExt := lowerStr (pathSuffix inputPath)
    if fileExt ∈ supportedFormats then
      match codec.decode contents with
      | none => (store, Except.error CompressError.decodeError)
      | some img =>
        let img1 := resizeIfNeeded codec img maxW maxH
        let outPath := resolveOutputPath inputPath outputPath
        let outExt := lowerStr (pathSuffix outPath)
        let img2 := prepareForEncode img1 outExt
        match saveImage codec img2 outExt quality with
        | none =>
          (setPath store outPath codec.residue,
            Except.error CompressError.encodeError)
        | some data => (writeFile store outPath data, Except.ok outPath)
    else
      (store, Except.error (CompressError.unsupportedFormat (unsupportedMsg fileExt)))

/-! ### The interactive variant (`script.py`) -/

/-- The file-picker extension filter of the interactive script. -/
def scriptExtensions : List String := [".jpg", ".jpeg", ".png", ".tiff", ".bmp"]

/-- Index of the last occurrence of a character, or `none`. -/
def lastIdx (cs : List Char) (c : Char) : Option Nat :=
  match cs with
  | [] => none
  | x :: xs =>
    match lastIdx xs c with
    | some i => some (i + 1)
    | none => if x = c then some 0 else none

/-- Model of `os.path.splitext`: split at the last dot when it lies after the last
slash and some earlier character of the base name is not a dot. -/
def splitextPath (p : String) : String × String :=
  let cs := p.toList
  match lastIdx cs '.' with
  | none => (p, "")
  | some di =>
    let fnameStart :=
      match lastIdx cs '/' with
      | none => 0
      | some s => s + 1
    if ((cs.drop fnameStart).take (di - fnameStart)).any (fun c => c ≠ '.') then
      (String.mk (cs.take di), String.mk (cs.drop di))
    else (p, "")

/-- The function `image_compressor(file_path, quality)` of the interactive script: check
the lowercased path against the extension filter, open, save to
`{base}_compressed{ext}` with the chosen quality; every failure is caught and
leaves the file system unchanged. -/
def scriptImageCompressor (codec : Codec) (store : Store) (filePath : String)
    (quality : Int) : Store :=
  if scriptExtensions.any (fun e => endsWithStr (lowerStr filePath) e) then
    match store filePath with
    | none => store
    | some contents =>
      match codec.decode contents with
      | none => store
      | some img =>
        let be := splitextPath filePath
        let outPath := be.1 ++ "_compressed" ++ be.2
        match codec.encodeAuto img quality with
        | none => setPath store outPath codec.residue
        | some data => writeFile store outPath data
  else store

/-- The `__main__` block of the interactive script: the picker returns a path
string (empty on cancellation), the quality dialog returns an optional
integer (`none` on cancellation); the compressor runs only when the path is
non-empty and a quality was entered. -/
def scriptMain (codec : Codec) (store : Store) (pickedFile : String)
    (qualityResp : Option Int) : Store :=
  if pickedFile ≠ "" then
    match qualityResp with
    | some q => scriptImageCompressor codec store pickedFile q
    | none => store
  else store

/-! ### Observation helpers and concrete test fixtures -/

/-- Whether a character list begins with the given needle. -/
def beginsWithList : List Char → List Char → Bool
  | [], _ => true
  | _ :: _, [] => false
  | x :: xs, y :: ys => x == y && beginsWithList xs ys

/-- Whether a character list occurs contiguously inside another. -/
def containsSubList (needle : List Char) : List Char → Bool
  | [] => needle.isEmpty
  | x :: t => beginsWithList needle (x :: t) || containsSubList needle t

/-- Substring test on strings (Python's `in` operator on `str`). -/
def containsSub (needle hay : String) : Bool :=
  containsSubList needle.toList hay.toList

/-- Whether a pipeline result is the unsupported-format error. -/
def isUnsupportedResult (r : Store × Except CompressError String) : Bool :=
  match r.2 with
  | Except.error (CompressError.unsupportedFormat _) => true
  | _ => false

/-- A small opaque test image. -/
def demoImg : Img :=
  { mode := Mode.rgb, width := 4, height := 4, pixels := [⟨10, 20, 30, 255⟩] }

/-- A test codec that always decodes to `demoImg`, resamples by replacing
the dimensions, and encodes to distinct marker strings. -/
def demoCodec : Codec :=
  { decode := fun _ => some demoImg
  , resample := fun img w h => { img with width := w, height := h }
  , encodePng := fun _ => some "PNGDATA"
  , encodeJpeg := fun _ _ => some "JPEGDATA"
  , encodeAuto := fun _ _ => some "AUTODATA"
  , residue := some "PARTIAL" }

/-- A test codec whose JPEG encoder always fails, leaving the partial
residue at the output path. -/
def failCodec : Codec :=
  { demoCodec with encodeJpeg := fun _ _ => none }

/-- A file system holding one JPEG file. -/
def demoStore : Store :=
  fun p => if p = "a.jpg" then some "ORIG" else none

/-- A file system holding one PNG file. -/
def demoStorePng : Store :=
  fun p => if p = "a.png" then some "ORIG" else none

/-- A file system holding one BMP file. -/
def demoStoreBmp : Store :=
  fun p => if p = "a.bmp" then some "ORIG" else none

/-- A file system holding one JPEG file inside a directory. -/
def demoStoreDir : Store :=
  fun p => if p = "d/a.jpg" then some "ORIG" else none

/-- The empty file system. -/
def emptyStore : Store :=
  fun _ => none

/-- A small RGBA test image with a translucent pixel. -/
def demoRgbaImg : Img :=
  { mode := Mode.rgba, width := 1, height := 1, pixels := [⟨100, 50, 0, 128⟩] }

/-! ### Helper lemmas -/

/-- A list begins with itself, whatever follows. -/
theorem beginsWithList_append (n r : List Char) :
    beginsWithList n (n ++ r) = true := by
  induction n with
  | nil => rfl
  | cons x xs ih => simp [beginsWithList, ih]

/-- A needle that the haystack begins with occurs inside it. -/
theorem containsSubList_of_beginsWith (n hay : List Char)
    (h : beginsWithList n hay = true) : containsSubList n hay = true := by
  cases hay with
  | nil =>
    cases n with
    | nil => rfl
    | cons x xs => simp [beginsWithList] at h
  | cons x t => simp [containsSubList, h]

/-- A needle occurs in any haystack it starts. -/
theorem containsSubList_append (n r : List Char) :
    containsSubList n (n ++ r) = true :=
  containsSubList_of_beginsWith n (n ++ r) (beginsWithList_append n r)

/-- The unsupported-format message contains the documented substring, for
every extension interpolated into it. -/
theorem unsupportedMsg_contains (ext : String) :
    containsSub "Unsupported file format" (unsupportedMsg ext) = true := by
  have h1 : "Unsupported file format: ".data =
      "Unsupported file format".data ++ [':', ' '] := by decide
  have hsplit : (unsupportedMsg ext).toList =
      "Unsupported file format".toList ++
        ([':', ' '] ++ (ext.data ++ (". Supported: ".data ++
          (intercalateStr ", " supportedFormats).data))) := by
    show (unsupportedMsg ext).data = _
    unfold unsupportedMsg
    simp only [String.data_append, h1, String.toList, List.append_assoc]
    simp [← List.append_assoc]
  unfold containsSub
  rw [hsplit]
  exact containsSubList_append _ _

/-- The successful prelude of the pipeline: with an existing input file, a
supported extension and a successful decode, the pipeline reduces to the save
dispatch on the resized, alpha-prepared image. -/
theorem compress_success_shape
    (codec : Codec) (store : Store) (input : String) (out : Option String)
    (q : Nat) (mw mh : Option Nat) (c : String) (img : Img)
    (hc : store input = some c)
    (hext : lowerStr (pathSuffix input) ∈ supportedFormats)
    (hdec : codec.decode c = some img) :
    compress codec store input out q mw mh =
      match saveImage codec
          (prepareForEncode (resizeIfNeeded codec img mw mh)
            (lowerStr (pathSuffix (resolveOutputPath input out))))
          (lowerStr (pathSuffix (resolveOutputPath input out))) q with
      | none =>
          (setPath store (resolveOutputPath input out) codec.residue,
            Except.error CompressError.encodeError)
      | some data =>
          (writeFile store (resolveOutputPath input out) data,
            Except.ok (resolveOutputPath input out)) := by
  simp only [compress, hc, hext, if_true, hdec]

/-- Every pipeline run either fails before the save with the file system
unchanged, or fails in the save leaving the unspecified residue at the
resolved output path, or writes exactly one file at the resolved output path
and returns that path. -/
theorem compress_cases (codec : Codec) (store : Store) (input : String)
    (out : Option String) (q : Nat) (mw mh : Option Nat) :
    ((compress codec store input out q mw mh).1 = store ∧
      (compress codec store input out q mw mh).2 ≠
        Except.error CompressError.encodeError ∧
      ∀ ret, (compress codec store input out q mw mh).2 ≠ Except.ok ret) ∨
    (compress codec store input out q mw mh =
      (setPath store (resolveOutputPath input out) codec.residue,
        Except.error CompressError.encodeError)) ∨
    (∃ data, compress codec store input out q mw mh =
      (writeFile store (resolveOutputPath input out) data,
        Except.ok (resolveOutputPath input out))) := by
  simp only [compress]
  split
  · exact Or.inl ⟨rfl, (fun h => by injection h with h2; cases h2),
      (fun ret h => by cases h)⟩
  · split
    · split
      · exact Or.inl ⟨rfl, (fun h => by injection h with h2; cases h2),
          (fun ret h => by cases h)⟩
      · split
        · exact Or.inr (Or.inl rfl)
        · exact Or.inr (Or.inr ⟨_, rfl⟩)
    · exact Or.inl ⟨rfl, (fun h => by injection h with h2; cases h2),
        (fun ret h => by cases h)⟩

/-- A returned output path is always the resolved output path. -/
theorem compress_ok_path (codec : Codec) (store : Store) (input : String)
    (out : Option String) (q : Nat) (mw mh : Option Nat) (ret : String)
    (h : (compress codec store input out q mw mh).2 = Except.ok ret) :
    ret = resolveOutputPath input out := by
  rcases compress_cases codec store input out q mw mh with
    ⟨_, _, hno⟩ | heq | ⟨data, heq⟩
  · exact absurd h (hno ret)
  · rw [heq] at h
    cases h
  · rw [heq] at h
    exact (Except.ok.inj h).symm

/-- The resize arithmetic is the height-bound step applied after the
width-bound step. -/
theorem resizeDims_eq_steps (w h : Nat) (mw mh : Option Nat) :
    resizeDims w h mw mh = heightStep (widthStep (w, h) mw) mh := by
  cases mw <;> cases mh <;> rfl

/-! ### Claim theorems -/

/-- C1, counterexample: for a 3×7 image with `max_width = 2`, the code's new
height is `int(7 * 2/3) = 4`, while rounding `7 × 2/3 = 14/3` to the nearest
integer gives 5, so the non-bounded dimension is not computed by rounding to
nearest. -/
theorem c1_round_counterexample :
    ((resizeDims 3 7 (some 2) none).2 : ℤ) ≠ round (((7 : ℚ) * 2) / 3) := by
  have h1 : (resizeDims 3 7 (some 2) none).2 = 4 := by decide
  rw [h1]
  norm_num [round_eq]

/-- C1, amended: in the resize step the non-bounded dimension is computed by
Python's `int()` truncation of the double-precision product — if `max_width`
is given and `W > max_width`, the new height is `int(H * (max_width / W))`
with `/` and `*` the IEEE-754 double operations, and symmetrically for the
height bound over the (possibly already width-adjusted) pair — not by
rounding to nearest (3×7 with `max_width = 2` yields 4, where rounding gives
5); because the ratio is itself a rounded double, the result can even fall
below the exact floor (10×90 with `max_width = 7` yields 62, while
`⌊90 × 7 / 10⌋ = 63`). -/
theorem c1_resize_truncation :
    (∀ w h mw : Nat, 0 < mw → mw < w →
      resizeDims w h (some mw) none = (mw, fToInt (fmul h (fdiv mw w)))) ∧
    (∀ w h mh : Nat, 0 < mh → mh < h →
      resizeDims w h none (some mh) = (fToInt (fmul w (fdiv mh h)), mh)) ∧
    (resizeDims 3 7 (some 2) none).2 = 4 ∧
    (round (((7 : ℚ) * 2) / 3) : ℤ) = 5 ∧
    (resizeDims 10 90 (some 7) none).2 = 62 ∧
    90 * 7 / 10 = 63 := by
  refine ⟨?_, ?_, by decide, by norm_num [round_eq], by decide, by decide⟩
  · intro w h mw h0 hlt
    rw [resizeDims_eq_steps]
    simp [widthStep, heightStep, h0.ne', hlt]
  · intro w h mh h0 hlt
    rw [resizeDims_eq_steps]
    simp [widthStep, heightStep, h0.ne', hlt]

/-- C1, witness for the amended statement at concrete inputs. -/
theorem c1_resize_truncation_witness :
    resizeDims 4 6 (some 2) none = (2, fToInt (fmul 6 (fdiv 2 4))) ∧
    resizeDims 6 4 none (some 2) = (fToInt (fmul 6 (fdiv 2 4)), 2) :=
  ⟨c1_resize_truncation.1 4 6 2 (by decide) (by decide),
   c1_resize_truncation.2.1 6 4 2 (by decide) (by decide)⟩

/-- C2: when both bounds are given the width bound is applied first and the
height bound second on the already width-adjusted pair, the width bound never
being re-applied afterward; and resizing a 200×200 image with
`max_width = 100` yields exactly 100×100. -/
theorem c2_bound_order :
    (∀ w h mw mh, resizeDims w h mw mh = heightStep (widthStep (w, h) mw) mh) ∧
    resizeDims 200 200 (some 100) none = (100, 100) :=
  ⟨resizeDims_eq_steps, by decide⟩

/-- C3, counterexample: calling `compress` with the explicit output path equal
to the input path overwrites the input file — the call succeeds and the
contents at the input path change from `"ORIG"` to the re-encoded
`"JPEGDATA"`, so `compress` does not leave the input file unchanged on every
call. -/
theorem c3_mutation_counterexample :
    (compress demoCodec demoStore "a.jpg" (some "a.jpg") 85 none none).2 =
      Except.ok "a.jpg" ∧
    demoStore "a.jpg" = some "ORIG" ∧
    (compress demoCodec demoStore "a.jpg" (some "a.jpg") 85 none none).1 "a.jpg" =
      some "JPEGDATA" ∧
    "JPEGDATA" ≠ "ORIG" :=
  ⟨rfl, rfl, by decide, by decide⟩

/-- C3, amended: `compress` never touches any path other than the resolved
output path — so the input file keeps its contents whenever it differs from
the resolved output path; a failure before the save (missing input,
unsupported extension, decode failure) leaves the whole file system
unchanged; an encode failure leaves the output path in the unspecified
post-truncation state the spec declines to define. -/
theorem c3_frame :
    (∀ codec store input out q mw mh p,
      p ≠ resolveOutputPath input out →
      (compress codec store input out q mw mh).1 p = store p) ∧
    (∀ codec store input out q mw mh e,
      e ≠ CompressError.encodeError →
      (compress codec store input out q mw mh).2 = Except.error e →
      (compress codec store input out q mw mh).1 = store) ∧
    (∀ codec store input out q mw mh,
      (compress codec store input out q mw mh).2 =
        Except.error CompressError.encodeError →
      (compress codec store input out q mw mh).1
        (resolveOutputPath input out) = codec.residue) := by
  refine ⟨?_, ?_, ?_⟩
  · intro codec store input out q mw mh p hne
    rcases compress_cases codec store input out q mw mh with
      ⟨h1, _, _⟩ | heq | ⟨data, heq⟩
    · rw [h1]
    · rw [heq]
      exact if_neg hne
    · rw [heq]
      exact if_neg hne
  · intro codec store input out q mw mh e hee herr
    rcases compress_cases codec store input out q mw mh with
      ⟨h1, _, _⟩ | heq | ⟨data, heq⟩
    · exact h1
    · rw [heq] at herr
      exact absurd (Except.error.inj herr).symm hee
    · rw [heq] at herr
      cases herr
  · intro codec store input out q mw mh herr
    rcases compress_cases codec store input out q mw mh with
      ⟨_, h2, _⟩ | heq | ⟨data, heq⟩
    · exact absurd herr h2
    · rw [heq]
      exact if_pos rfl
    · rw [heq] at herr
      cases herr

/-- C3, witness for the amended statement: a successful run with a distinct
output path leaves the input file untouched, a run failing before the save
changes nothing, and an encode failure leaves the residue at the output
path. -/
theorem c3_frame_witness :
    (compress demoCodec demoStore "a.jpg" (some "out.jpg") 85 none none).1
      "a.jpg" = demoStore "a.jpg" ∧
    (compress demoCodec emptyStore "a.jpg" none 85 none none).1 = emptyStore ∧
    (compress failCodec demoStore "a.jpg" (some "out.jpg") 85 none none).1
      (resolveOutputPath "a.jpg" (some "out.jpg")) = failCodec.residue :=
  ⟨c3_frame.1 demoCodec demoStore "a.jpg" (some "out.jpg") 85 none none
      "a.jpg" (by decide),
   (c3_frame.2.1 demoCodec emptyStore "a.jpg" none 85 none none
      CompressError.notFound (by decide) rfl),
   c3_frame.2.2 failCodec demoStore "a.jpg" (some "out.jpg") 85 none none
      rfl⟩

/-- C4: when the resolved output path's lowercased extension is `.png`, the
quality argument is ignored — two calls differing only in quality produce
identical results (file system and returned path alike). -/
theorem c4_png_ignores_quality
    (codec : Codec) (store : Store) (input : String) (out : Option String)
    (q1 q2 : Nat) (mw mh : Option Nat)
    (hpng : lowerStr (pathSuffix (resolveOutputPath input out)) = ".png") :
    compress codec store input out q1 mw mh =
      compress codec store input out q2 mw mh := by
  cases hst : store input with
  | none => simp only [compress, hst]
  | some c =>
    by_cases hext : lowerStr (pathSuffix input) ∈ supportedFormats
    · cases hdec : codec.decode c with
      | none => simp only [compress, hst, hext, if_true, hdec]
      | some img =>
        rw [compress_success_shape codec store input out q1 mw mh c img hst hext hdec,
          compress_success_shape codec store input out q2 mw mh c img hst hext hdec]
        simp [saveImage, hpng]
    · simp [compress, hst, hext]

/-- C4, witness: two qualities, PNG output, identical results. -/
theorem c4_png_ignores_quality_witness :
    compress demoCodec demoStorePng "a.png" none 10 none none =
      compress demoCodec demoStorePng "a.png" none 90 none none :=
  c4_png_ignores_quality demoCodec demoStorePng "a.png" none 10 90 none none
    (by decide)

/-- C7: a missing input file raises `NotFoundError` before anything else, no
matter the extension, the codec or the other arguments, and the file system
is unchanged. -/
theorem c7_not_found
    (codec : Codec) (store : Store) (input : String) (out : Option String)
    (q : Nat) (mw mh : Option Nat) (h : store input = none) :
    compress codec store input out q mw mh =
      (store, Except.error CompressError.notFound) := by
  simp only [compress, h]

/-- C7, witness: a non-existent path with an unsupported `.bmp` extension
still raises `NotFoundError`, not `UnsupportedFormatError`. -/
theorem c7_not_found_witness :
    emptyStore "ghost.bmp" = none ∧
    compress demoCodec emptyStore "ghost.bmp" none 85 none none =
      (emptyStore, Except.error CompressError.notFound) :=
  ⟨rfl, c7_not_found demoCodec emptyStore "ghost.bmp" none 85 none none rfl⟩

/-- C5: an RGBA image headed for a `.jpg`/`.jpeg` output is composited over
an opaque white background with the alpha channel as blend mask, yielding an
opaque RGB image (every pixel's alpha is 255), and it is that flattened image
the JPEG encoder receives. -/
theorem c5_alpha_flatten (img : Img) (ext : String)
    (hm : img.mode = Mode.rgba) (he : ext = ".jpg" ∨ ext = ".jpeg") :
    prepareForEncode img ext = flattenWhite img ∧
    (prepareForEncode img ext).mode = Mode.rgb ∧
    (prepareForEncode img ext).pixels = img.pixels.map blendOverWhite ∧
    (∀ p ∈ (prepareForEncode img ext).pixels, p.a = 255) ∧
    (∀ codec q, saveImage codec (prepareForEncode img ext) ext q =
      codec.encodeJpeg (flattenWhite img) q) := by
  have hp : prepareForEncode img ext = flattenWhite img := by
    unfold prepareForEncode
    rw [if_pos ⟨hm, he⟩]
  have hpng : ext ≠ ".png" := by
    rcases he with h | h <;> subst h <;> decide
  refine ⟨hp, ?_, ?_, ?_, ?_⟩
  · rw [hp]; rfl
  · rw [hp]; rfl
  · rw [hp]
    intro p hmem
    rcases List.mem_map.mp hmem with ⟨r, _, rfl⟩
    rfl
  · intro codec q
    rw [hp]
    unfold saveImage
    rw [if_neg hpng]

/-- C5, witness at a concrete translucent RGBA pixel and `.jpg` target. -/
theorem c5_alpha_flatten_witness :
    prepareForEncode demoRgbaImg ".jpg" = flattenWhite demoRgbaImg ∧
    (prepareForEncode demoRgbaImg ".jpg").mode = Mode.rgb :=
  ⟨(c5_alpha_flatten demoRgbaImg ".jpg" rfl (Or.inl rfl)).1,
   (c5_alpha_flatten demoRgbaImg ".jpg" rfl (Or.inl rfl)).2.1⟩

/-- The save dispatch followed by the ok/error wrap never produces the
unsupported-format error. -/
theorem isUnsupportedResult_save (store : Store) (p : String)
    (res : Option String) (sv : Option String) :
    isUnsupportedResult
      (match sv with
       | none => (setPath store p res, Except.error CompressError.encodeError)
       | some data => (writeFile store p data, Except.ok p)) = false := by
  cases sv <;> rfl

/-- C6: an existing input whose lowercased extension is outside
`{.png, .jpg, .jpeg}` makes `compress` fail with the unsupported-format error
whose message contains `"Unsupported file format"`, with no file opened or
written (the result does not depend on the codec and the file system is
returned unchanged); the match is case-insensitive, so a `.PNG` input is
accepted and can never produce that error. -/
theorem c6_unsupported_format :
    (∀ codec store input out q mw mh c,
      store input = some c →
      lowerStr (pathSuffix input) ∉ supportedFormats →
      compress codec store input out q mw mh =
        (store, Except.error (CompressError.unsupportedFormat
          (unsupportedMsg (lowerStr (pathSuffix input))))) ∧
      containsSub "Unsupported file format"
        (unsupportedMsg (lowerStr (pathSuffix input))) = true) ∧
    lowerStr (pathSuffix "photo.PNG") ∈ supportedFormats ∧
    (∀ codec store out q mw mh,
      isUnsupportedResult (compress codec store "photo.PNG" out q mw mh) =
        false) := by
  refine ⟨?_, by decide, ?_⟩
  · intro codec store input out q mw mh c hc hu
    exact ⟨by simp [compress, hc, hu], unsupportedMsg_contains _⟩
  · intro codec store out q mw mh
    cases hst : store "photo.PNG" with
    | none => simp [compress, hst, isUnsupportedResult]
    | some c =>
      have hext : lowerStr (pathSuffix "photo.PNG") ∈ supportedFormats := by
        decide
      cases hdec : codec.decode c with
      | none => simp [compress, hst, hext, hdec, isUnsupportedResult]
      | some img =>
        rw [compress_success_shape codec store "photo.PNG" out q mw mh c img
          hst hext hdec]
        exact isUnsupportedResult_save _ _ _ _

/-- C6, witness: a `.bmp` input raises the unsupported-format error with the
documented substring and leaves the file system unchanged. -/
theorem c6_unsupported_format_witness :
    demoStoreBmp "a.bmp" = some "ORIG" ∧
    compress demoCodec demoStoreBmp "a.bmp" none 85 none none =
      (demoStoreBmp, Except.error (CompressError.unsupportedFormat
        (unsupportedMsg (lowerStr (pathSuffix "a.bmp"))))) ∧
    containsSub "Unsupported file format"
      (unsupportedMsg (lowerStr (pathSuffix "a.bmp"))) = true :=
  ⟨rfl,
   (c6_unsupported_format.1 demoCodec demoStoreBmp "a.bmp" none 85 none none
      "ORIG" rfl (by decide)).1,
   (c6_unsupported_format.1 demoCodec demoStoreBmp "a.bmp" none 85 none none
      "ORIG" rfl (by decide)).2⟩

/-- C8: a returned path is the resolved output path — the explicit output
path verbatim when one is supplied, else the derived default
`{parent}/{stem}_compressed{suffix}` next to the input (with the `/` omitted
by the path library when the input has no directory part). -/
theorem c8_output_path :
    (∀ codec store input outp q mw mh ret,
      (compress codec store input (some outp) q mw mh).2 = Except.ok ret →
      ret = outp) ∧
    (∀ codec store input q mw mh ret,
      (compress codec store input none q mw mh).2 = Except.ok ret →
      ret = defaultOutputPath input) ∧
    (∀ input, parentDir input ≠ "." →
      defaultOutputPath input =
        parentDir input ++ "/" ++
          (pathStem input ++ "_compressed" ++ pathSuffix input)) ∧
    (∀ input, parentDir input = "." →
      defaultOutputPath input =
        pathStem input ++ "_compressed" ++ pathSuffix input) := by
  refine ⟨?_, ?_, ?_, ?_⟩
  · intro codec store input outp q mw mh ret h
    exact compress_ok_path codec store input (some outp) q mw mh ret h
  · intro codec store input q mw mh ret h
    exact compress_ok_path codec store input none q mw mh ret h
  · intro input h
    simp only [defaultOutputPath]
    rw [if_neg h]
  · intro input h
    simp only [defaultOutputPath]
    rw [if_pos h]

/-- C8, witness: an explicit output path is returned verbatim, the default
output path is returned otherwise, and the default derivation at a concrete
directory path. -/
theorem c8_output_path_witness :
    "out.png" = "out.png" ∧
    "a_compressed.jpg" = defaultOutputPath "a.jpg" ∧
    defaultOutputPath "d/a.jpg" =
      parentDir "d/a.jpg" ++ "/" ++
        (pathStem "d/a.jpg" ++ "_compressed" ++ pathSuffix "d/a.jpg") :=
  ⟨c8_output_path.1 demoCodec demoStore "a.jpg" "out.png" 85 none none
      "out.png" rfl,
   c8_output_path.2.1 demoCodec demoStore "a.jpg" 85 none none
      "a_compressed.jpg" rfl,
   c8_output_path.2.2.1 "d/a.jpg" (by decide)⟩

/-- C9: cancelling either interactive prompt (empty path from the file
picker, or no value from the quality dialog) aborts the script — the
compression function is never reached and the file system is unchanged, for
every codec. -/
theorem c9_cancel_aborts (codec : Codec) (store : Store) (pickedFile : String)
    (qualityResp : Option Int)
    (h : pickedFile = "" ∨ qualityResp = none) :
    scriptMain codec store pickedFile qualityResp = store := by
  rcases h with h | h
  · subst h
    rfl
  · subst h
    unfold scriptMain
    split <;> rfl

/-- C9, witness: both cancellation paths at concrete prompts. -/
theorem c9_cancel_aborts_witness :
    scriptMain demoCodec demoStore "" (some 50) = demoStore ∧
    scriptMain demoCodec demoStore "a.jpg" none = demoStore :=
  ⟨c9_cancel_aborts demoCodec demoStore "" (some 50) (Or.inl rfl),
   c9_cancel_aborts demoCodec demoStore "a.jpg" none (Or.inr rfl)⟩

/-- C10: the encoder dispatch has no error case for unrecognized output
extensions — any lowercased output extension other than `.png` (a `.bmp` or
`.gif` target, or no extension at all) takes the JPEG branch with the given
quality, and the run fails with `EncodeError` exactly when that encoder
fails. -/
theorem c10_non_png_jpeg_branch :
    (∀ codec img outExt q, outExt ≠ ".png" →
      saveImage codec img outExt q = codec.encodeJpeg img q) ∧
    (∀ codec store input out q mw mh c img,
      store input = some c →
      lowerStr (pathSuffix input) ∈ supportedFormats →
      codec.decode c = some img →
      lowerStr (pathSuffix (resolveOutputPath input out)) ≠ ".png" →
      compress codec store input out q mw mh =
        match codec.encodeJpeg
            (prepareForEncode (resizeIfNeeded codec img mw mh)
              (lowerStr (pathSuffix (resolveOutputPath input out)))) q with
        | none =>
            (setPath store (resolveOutputPath input out) codec.residue,
              Except.error CompressError.encodeError)
        | some data =>
            (writeFile store (resolveOutputPath input out) data,
              Except.ok (resolveOutputPath input out))) := by
  have hsv : ∀ codec img outExt q, outExt ≠ ".png" →
      saveImage codec img outExt q = codec.encodeJpeg img q := by
    intro codec img outExt q h
    unfold saveImage
    rw [if_neg h]
  refine ⟨hsv, ?_⟩
  intro codec store input out q mw mh c img hc hext hdec hne
  rw [compress_success_shape codec store input out q mw mh c img hc hext hdec]
  rw [hsv _ _ _ _ hne]

/-- C10, witness: a `.bmp` output path takes the JPEG branch. -/
theorem c10_non_png_jpeg_branch_witness :
    saveImage demoCodec demoImg ".bmp" 85 = demoCodec.encodeJpeg demoImg 85 ∧
    compress demoCodec demoStore "a.jpg" (some "x.bmp") 85 none none =
      match demoCodec.encodeJpeg
          (prepareForEncode (resizeIfNeeded demoCodec demoImg none none)
            (lowerStr (pathSuffix (resolveOutputPath "a.jpg" (some "x.bmp")))))
          85 with
      | none =>
          (setPath demoStore (resolveOutputPath "a.jpg" (some "x.bmp"))
            demoCodec.residue,
            Except.error CompressError.encodeError)
      | some data =>
          (writeFile demoStore (resolveOutputPath "a.jpg" (some "x.bmp")) data,
            Except.ok (resolveOutputPath "a.jpg" (some "x.bmp"))) :=
  ⟨c10_non_png_jpeg_branch.1 demoCodec demoImg ".bmp" 85 (by decide),
   c10_non_png_jpeg_branch.2 demoCodec demoStore "a.jpg" (some "x.bmp") 85
      none none "ORIG" demoImg rfl (by decide) rfl (by decide)⟩

end ImageCompressor
